import Mathlib

set_option maxHeartbeats 1000000

/- Shallow embedding of src/skills/skill-creator/scripts/validate_skill.py.
Text is modelled as Lean `String`; per-character work happens on
`String.data : List Char`.  The `re` patterns used by the script are literal
words with optional word boundaries, modelled over ASCII (Python's Unicode
word characters and whitespace beyond ASCII are out of scope, as are the
file-system wrappers: `validate_skill` is modelled on a file that exists and
is read successfully, given its basename and its full text). -/

def MAX_NAME_LENGTH : Nat := 64

def MAX_DESCRIPTION_LENGTH : Nat := 1024

def RESERVED_WORDS : List String := ["anthropic", "claude"]

/-- Whitespace class of Python str.strip(), restricted to ASCII. -/
def isPySpace (c : Char) : Bool :=
  c == ' ' || c == '\t' || c == '\n' || c == '\r' || c == '\x0b' || c == '\x0c'

/-- Python str.strip(): drop leading and trailing whitespace. -/
def trimChars (cs : List Char) : List Char :=
  ((cs.dropWhile isPySpace).reverse.dropWhile isPySpace).reverse

/-- Python content.split of the newline character: never empty, the empty
string yields one empty line. -/
def splitLines : List Char → List (List Char)
  | [] => [[]]
  | c :: cs =>
    if c == '\n' then [] :: splitLines cs
    else
      match splitLines cs with
      | [] => [[c]]
      | l :: ls => (c :: l) :: ls

/-- Python newline-join of a list of lines. -/
def joinLines : List (List Char) → List Char
  | [] => []
  | [l] => l
  | l :: ls => l ++ '\n' :: joinLines ls

/-- The frontmatter delimiter token of the script. -/
def delim : List Char := ['-', '-', '-']

def missingOpenMsg : String :=
  "Missing YAML frontmatter (must start with \x27\x2d\x2d\x2d\x27)"

def unclosedMsg : String :=
  "YAML frontmatter not properly closed (missing closing \x27\x2d\x2d\x2d\x27)"

def nameRequiredMsg : String := "name field is required and cannot be empty"

def nameLengthMsg (n : Nat) : String :=
  "name exceeds maximum length of " ++
    (Nat.repr MAX_NAME_LENGTH ++ (" characters (found " ++ (Nat.repr n ++ ")")))

def nameCharsMsg : String :=
  "name must contain only lowercase letters, numbers, and hyphens"

def nameXmlMsg : String := "name cannot contain XML tags"

def nameReservedMsg (w : String) : String :=
  "name cannot contain reserved word \x27" ++ (w ++ "\x27")

def descRequiredMsg : String := "description field is required and cannot be empty"

def descLengthMsg (n : Nat) : String :=
  "description exceeds maximum length of " ++
    (Nat.repr MAX_DESCRIPTION_LENGTH ++ (" characters (found " ++ (Nat.repr n ++ ")")))

def descXmlMsg : String := "description cannot contain XML tags"

def firstPersonMsg : String :=
  "description should use third person, not first person (avoid \x27I\x27, \x27my\x27, \x27me\x27)"

def secondPersonMsg : String :=
  "description should use third person, not second person (avoid \x27you\x27, \x27your\x27)"

def descWhenMsg : String :=
  "description should include \x27when to use\x27 guidance (e.g., \x27Use when...\x27)"

def bodyWarnMsg (n : Nat) : String :=
  "SKILL.md body has " ++
    (Nat.repr n ++ " lines (recommended: under 500). Consider using progressive disclosure with separate reference files.")

def filenameWarnMsg (fname : String) : String :=
  "Skill file should be named \x27SKILL.md\x27, found \x27" ++ (fname ++ "\x27")

/-- Header lines strictly before the first closing delimiter line, if a
closing delimiter line exists. -/
def collectHeader : List (List Char) → Option (List (List Char))
  | [] => none
  | l :: rest =>
    if trimChars l = delim then some []
    else (collectHeader rest).map (fun ls => l :: ls)

/-- extract_frontmatter of the script; ok carries the frontmatter text,
error the single extraction message. -/
def extract_frontmatter (content : String) : Except String String :=
  match splitLines content.data with
  | [] => Except.error missingOpenMsg
  | l0 :: rest =>
    if trimChars l0 = delim then
      match collectHeader rest with
      | none => Except.error unclosedMsg
      | some fmLines => Except.ok (String.mk (joinLines fmLines))
    else Except.error missingOpenMsg

/-- Membership of a character in a list of characters. -/
def containsChar (a : Char) : List Char → Bool
  | [] => false
  | c :: cs => c == a || containsChar a cs

/-- Everything before the first colon of a header line. -/
def keyOf (l : List Char) : List Char := l.takeWhile (fun c => !(c == ':'))

/-- Everything after the first colon of a header line. -/
def valOf (l : List Char) : List Char := (l.dropWhile (fun c => !(c == ':'))).drop 1

/-- Python dict assignment: overwrite the value in place if the key is
present, otherwise append the binding. -/
def dictInsert (d : List (String × String)) (k v : String) : List (String × String) :=
  if d.any (fun p => p.1 == k) then d.map (fun p => if p.1 == k then (k, v) else p)
  else d ++ [(k, v)]

/-- Python dict read with default empty string. -/
def dictGet (d : List (String × String)) (k : String) : String :=
  match d.find? (fun p => p.1 == k) with
  | some p => p.2
  | none => ""

/-- One step of parse_frontmatter: a line with a colon is split at the first
colon, both sides trimmed; a line without a colon contributes nothing. -/
def parseLine (d : List (String × String)) (line : List Char) : List (String × String) :=
  if containsChar ':' line then
    dictInsert d (String.mk (trimChars (keyOf line))) (String.mk (trimChars (valOf line)))
  else d

def parseLines (ls : List (List Char)) : List (String × String) :=
  ls.foldl parseLine []

/-- parse_frontmatter of the script. -/
def parse_frontmatter (fm : String) : List (String × String) :=
  parseLines (splitLines fm.data)

/-- Word character of Python re, restricted to ASCII. -/
def wordChar (c : Char) : Bool := c.isAlpha || c.isDigit || c == '_'

/-- Case-insensitive match of a lowercase literal at the head of the text,
returning the rest of the text on success. -/
def ciStrip : List Char → List Char → Option (List Char)
  | [], s => some s
  | _ :: _, [] => none
  | p :: ps, c :: cs => if c.toLower == p then ciStrip ps cs else none

def noWordAhead : List Char → Bool
  | [] => true
  | c :: _ => !(wordChar c)

def boundaryBefore : Option Char → Bool
  | none => true
  | some c => !(wordChar c)

/-- Match of one pattern occurrence at the current position: `prev` is the
character just before the position.  The patterns of the script begin and
end with word characters, so a word boundary there means exactly a non-word
neighbour or the edge of the text. -/
def matchHere (pat : List Char) (bS bE : Bool) (prev : Option Char) (s : List Char) : Bool :=
  (!bS || boundaryBefore prev) &&
    (match ciStrip pat s with
     | none => false
     | some rest => !bE || noWordAhead rest)

def searchAux (pat : List Char) (bS bE : Bool) : Option Char → List Char → Bool
  | prev, [] => matchHere pat bS bE prev []
  | prev, c :: cs => matchHere pat bS bE prev (c :: cs) || searchAux pat bS bE (some c) cs

/-- re.search with the IGNORECASE flag for a lowercase literal pattern with
optional word boundaries at its two ends. -/
def reSearch (pat : String) (bS bE : Bool) (s : List Char) : Bool :=
  searchAux pat.data bS bE none s

/-- The first-person pattern scan of validate_description: the loop appends
one fixed message and breaks at the first matching pattern, so the scan
reduces to a disjunction. -/
def firstPersonHit (d : List Char) : Bool :=
  reSearch "i" true true d || reSearch "my" true true d || reSearch "me" true true d ||
    reSearch "i\x27m" false false d || reSearch "i\x27ll" false false d

/-- The second-person pattern scan of validate_description. -/
def secondPersonHit (d : List Char) : Bool :=
  reSearch "you" true true d || reSearch "your" true true d ||
    reSearch "you\x27re" true false d || reSearch "you\x27ll" true false d

/-- Match of the tag pattern starting just after an opening angle bracket:
at least one character other than a closing angle bracket, then eventually a
closing angle bracket. -/
def tagFrom : List Char → Bool
  | [] => false
  | c :: rest => !(c == '>') && containsChar '>' rest

/-- re.search of the XML_TAG_PATTERN of the script. -/
def hasXmlTag : List Char → Bool
  | [] => false
  | c :: rest => (c == '<' && tagFrom rest) || hasXmlTag rest

def isNameChar (c : Char) : Bool :=
  (decide ('a' ≤ c) && decide (c ≤ 'z')) ||
    (decide ('0' ≤ c) && decide (c ≤ '9')) || c == '-'

/-- re.match of NAME_PATTERN: one or more name characters spanning the whole
text; the end anchor of Python also accepts one final newline. -/
def namePatternMatch (cs : List Char) : Bool :=
  let core := if cs.getLast? == some '\n' then cs.dropLast else cs
  !core.isEmpty && core.all isNameChar

/-- Contiguous-substring test, Python in-operator on strings. -/
def isSubstring (needle : List Char) : List Char → Bool
  | [] => needle.isEmpty
  | c :: cs => needle.isPrefixOf (c :: cs) || isSubstring needle cs

/-- Python str.lower(), restricted to ASCII. -/
def lowerList (cs : List Char) : List Char := cs.map Char.toLower

/-- validate_name of the script. -/
def validate_name (name : String) : List String :=
  if name = "" then [nameRequiredMsg]
  else
    (if name.length > MAX_NAME_LENGTH then [nameLengthMsg name.length] else []) ++
    (if namePatternMatch name.data then [] else [nameCharsMsg]) ++
    (if hasXmlTag name.data then [nameXmlMsg] else []) ++
    (RESERVED_WORDS.filter (fun w => isSubstring w.data (lowerList name.data))).map nameReservedMsg

def GUIDANCE_PHRASES : List String :=
  ["use when", "when the user", "when working", "when creating",
   "when implementing", "when managing", "when analyzing"]

def hasWhenIndicator (d : List Char) : Bool :=
  GUIDANCE_PHRASES.any (fun p => isSubstring p.data (lowerList d))

/-- validate_description of the script. -/
def validate_description (description : String) : List String :=
  if description = "" then [descRequiredMsg]
  else
    (if description.length > MAX_DESCRIPTION_LENGTH then [descLengthMsg description.length] else []) ++
    (if hasXmlTag description.data then [descXmlMsg] else []) ++
    (if firstPersonHit description.data then [firstPersonMsg] else []) ++
    (if secondPersonHit description.data then [secondPersonMsg] else []) ++
    (if hasWhenIndicator description.data then [] else [descWhenMsg])

/-- Index just after the second delimiter line, zero when no second
delimiter line exists: the frontmatter skip of count_lines. -/
def findSecondDelim : List (List Char) → Nat → Nat → Nat
  | [], _, _ => 0
  | l :: rest, i, cnt =>
    if trimChars l = delim then
      if cnt + 1 = 2 then i + 1 else findSecondDelim rest (i + 1) (cnt + 1)
    else findSecondDelim rest (i + 1) cnt

/-- count_lines of the script: non-blank lines after the frontmatter. -/
def count_lines (content : String) : Nat :=
  let lines := splitLines content.data
  let start_index := findSecondDelim lines 0 0
  ((lines.drop start_index).filter (fun l => !(trimChars l).isEmpty)).length

/-- validate_skill of the script, on a file that exists and is read
successfully: `filename` is the basename of the path, `content` the text. -/
def validate_skill (filename content : String) : List String × List String :=
  let warnings := if filename = "SKILL.md" then [] else [filenameWarnMsg filename]
  match extract_frontmatter content with
  | Except.error e => ([e], [])
  | Except.ok fm =>
    let data := parse_frontmatter fm
    let name_errors := validate_name (dictGet data "name")
    let desc_errors := validate_description (dictGet data "description")
    let line_count := count_lines content
    let warnings2 := if line_count > 500 then warnings ++ [bodyWarnMsg line_count] else warnings
    (name_errors ++ desc_errors, warnings2)

theorem strData_append (s t : String) : (s ++ t).data = s.data ++ t.data :=
  String.data_append s t

theorem str_ne_of_get (s t : String) (i : Nat) (h : s.data[i]? ≠ t.data[i]?) : s ≠ t :=
  fun he => h (by rw [he])

theorem get_append_str (s t : String) (i : Nat) (h : i < s.data.length) :
    (s ++ t).data[i]? = s.data[i]? := by
  rw [strData_append]; exact List.getElem?_append_left h

theorem nameLengthMsg_get5 (n : Nat) : (nameLengthMsg n).data[5]? = some 'e' := by
  unfold nameLengthMsg
  rw [get_append_str _ _ 5 (by decide)]
  decide

theorem nameReservedMsg_get5 (w : String) : (nameReservedMsg w).data[5]? = some 'c' := by
  unfold nameReservedMsg
  rw [get_append_str _ _ 5 (by decide)]
  decide

theorem nameReservedMsg_get20 (w : String) : (nameReservedMsg w).data[20]? = some 'r' := by
  unfold nameReservedMsg
  rw [get_append_str _ _ 20 (by decide)]
  decide

theorem nameReservedMsg_get0 (w : String) : (nameReservedMsg w).data[0]? = some 'n' := by
  unfold nameReservedMsg
  rw [get_append_str _ _ 0 (by decide)]
  decide

theorem nameLengthMsg_get0 (n : Nat) : (nameLengthMsg n).data[0]? = some 'n' := by
  unfold nameLengthMsg
  rw [get_append_str _ _ 0 (by decide)]
  decide

theorem descLengthMsg_get12 (n : Nat) : (descLengthMsg n).data[12]? = some 'e' := by
  unfold descLengthMsg
  rw [get_append_str _ _ 12 (by decide)]
  decide

theorem descLengthMsg_get0 (n : Nat) : (descLengthMsg n).data[0]? = some 'd' := by
  unfold descLengthMsg
  rw [get_append_str _ _ 0 (by decide)]
  decide

theorem bodyWarnMsg_get0 (n : Nat) : (bodyWarnMsg n).data[0]? = some 'S' := by
  unfold bodyWarnMsg
  rw [get_append_str _ _ 0 (by decide)]
  decide

theorem nameLengthMsg_ne_reserved (n : Nat) (w : String) :
    nameLengthMsg n ≠ nameReservedMsg w :=
  str_ne_of_get _ _ 5 (by rw [nameLengthMsg_get5, nameReservedMsg_get5]; decide)

theorem nameCharsMsg_ne_reserved (w : String) : nameCharsMsg ≠ nameReservedMsg w :=
  str_ne_of_get _ _ 5 (by rw [nameReservedMsg_get5]; decide)

theorem nameXmlMsg_ne_reserved (w : String) : nameXmlMsg ≠ nameReservedMsg w :=
  str_ne_of_get _ _ 20 (by rw [nameReservedMsg_get20]; decide)

theorem nameLengthMsg_ne_xml (n : Nat) : nameXmlMsg ≠ nameLengthMsg n :=
  str_ne_of_get _ _ 5 (by rw [nameLengthMsg_get5]; decide)

theorem descLengthMsg_ne_first (n : Nat) : descLengthMsg n ≠ firstPersonMsg :=
  str_ne_of_get _ _ 12 (by rw [descLengthMsg_get12]; decide)

theorem descLengthMsg_ne_second (n : Nat) : descLengthMsg n ≠ secondPersonMsg :=
  str_ne_of_get _ _ 12 (by rw [descLengthMsg_get12]; decide)

theorem descLengthMsg_ne_xml (n : Nat) : descXmlMsg ≠ descLengthMsg n :=
  str_ne_of_get _ _ 12 (by rw [descLengthMsg_get12]; decide)

theorem mem_of_ite_nil {α : Type} {c : Prop} [Decidable c] {e : α} {l : List α}
    (h : e ∈ (if c then l else [])) : e ∈ l := by
  by_cases hc : c
  · rwa [if_pos hc] at h
  · rw [if_neg hc] at h; cases h

theorem mem_of_ite_nil' {α : Type} {c : Prop} [Decidable c] {e : α} {l : List α}
    (h : e ∈ (if c then [] else l)) : e ∈ l := by
  by_cases hc : c
  · rw [if_pos hc] at h; cases h
  · rwa [if_neg hc] at h

theorem count_ite_zero {c : Prop} [Decidable c] {a b : String} (hab : b ≠ a) :
    ((if c then [b] else []) : List String).count a = 0 := by
  apply List.count_eq_zero.mpr
  intro hmem
  have h1 : a ∈ [b] := mem_of_ite_nil hmem
  simp at h1
  exact hab h1.symm

theorem count_ite_zero' {c : Prop} [Decidable c] {a b : String} (hab : b ≠ a) :
    ((if c then [] else [b]) : List String).count a = 0 := by
  apply List.count_eq_zero.mpr
  intro hmem
  have h1 : a ∈ [b] := mem_of_ite_nil' hmem
  simp at h1
  exact hab h1.symm

theorem count_ite_le_one (c : Prop) [Decidable c] (a b : String) :
    ((if c then [b] else []) : List String).count a ≤ 1 := by
  by_cases hc : c
  · rw [if_pos hc]; simp [List.count_cons]; split <;> simp
  · rw [if_neg hc]; simp

theorem validate_name_nil (name : String) (h0 : name ≠ "")
    (h1 : name.length ≤ MAX_NAME_LENGTH) (h2 : namePatternMatch name.data = true)
    (h3 : hasXmlTag name.data = false)
    (h4 : ∀ w ∈ RESERVED_WORDS, isSubstring w.data (lowerList name.data) = false) :
    validate_name name = [] := by
  have ha := h4 "anthropic" (by simp [RESERVED_WORDS])
  have hc := h4 "claude" (by simp [RESERVED_WORDS])
  unfold validate_name
  rw [if_neg h0]
  rw [if_neg (by omega : ¬ name.length > MAX_NAME_LENGTH)]
  rw [if_pos h2]
  rw [if_neg (by rw [h3]; exact Bool.false_ne_true)]
  simp [RESERVED_WORDS, List.filter, ha, hc]

theorem validate_description_nil (d : String) (h0 : d ≠ "")
    (h1 : d.length ≤ MAX_DESCRIPTION_LENGTH) (h2 : hasXmlTag d.data = false)
    (h3 : firstPersonHit d.data = false) (h4 : secondPersonHit d.data = false)
    (h5 : hasWhenIndicator d.data = true) :
    validate_description d = [] := by
  unfold validate_description
  rw [if_neg h0]
  rw [if_neg (by omega : ¬ d.length > MAX_DESCRIPTION_LENGTH)]
  rw [if_neg (by rw [h2]; exact Bool.false_ne_true)]
  rw [if_neg (by rw [h3]; exact Bool.false_ne_true)]
  rw [if_neg (by rw [h4]; exact Bool.false_ne_true)]
  rw [if_pos h5]
  rfl

theorem extract_error_cases (content e : String)
    (h : extract_frontmatter content = Except.error e) :
    e = missingOpenMsg ∨ e = unclosedMsg := by
  unfold extract_frontmatter at h
  split at h
  · exact Or.inl (by injection h with h2; exact h2.symm)
  · split at h
    · split at h
      · exact Or.inr (by injection h with h2; exact h2.symm)
      · exact Except.noConfusion h
    · exact Or.inl (by injection h with h2; exact h2.symm)

theorem validate_name_head (name e : String) (h : e ∈ validate_name name) :
    e.data[0]? = some 'n' := by
  unfold validate_name at h
  split at h
  · simp at h
    rw [h]; decide
  · simp only [List.mem_append] at h
    rcases h with ((h1 | h2) | h3) | h4
    · have h1' := mem_of_ite_nil h1
      simp at h1'
      rw [h1', nameLengthMsg_get0]
    · have h2' := mem_of_ite_nil' h2
      simp at h2'
      rw [h2']; decide
    · have h3' := mem_of_ite_nil h3
      simp at h3'
      rw [h3']; decide
    · rcases List.mem_map.mp h4 with ⟨w, _, hw⟩
      rw [← hw, nameReservedMsg_get0]

theorem validate_description_head (d e : String) (h : e ∈ validate_description d) :
    e.data[0]? = some 'd' := by
  unfold validate_description at h
  split at h
  · simp at h
    rw [h]; decide
  · simp only [List.mem_append] at h
    rcases h with (((h1 | h2) | h3) | h4) | h5
    · have h1' := mem_of_ite_nil h1
      simp at h1'
      rw [h1', descLengthMsg_get0]
    · have h2' := mem_of_ite_nil h2
      simp at h2'
      rw [h2']; decide
    · have h3' := mem_of_ite_nil h3
      simp at h3'
      rw [h3']; decide
    · have h4' := mem_of_ite_nil h4
      simp at h4'
      rw [h4']; decide
    · have h5' := mem_of_ite_nil' h5
      simp at h5'
      rw [h5']; decide

/-- C1: a document whose first line does not trim to the delimiter token
(including the empty document) yields exactly the missing-open-delimiter
error and no warnings, for any filename. -/
theorem C1_missing_open_delimiter (fn content : String)
    (h : trimChars ((splitLines content.data).headD []) ≠ delim) :
    validate_skill fn content = ([missingOpenMsg], []) := by
  have hex : extract_frontmatter content = Except.error missingOpenMsg := by
    unfold extract_frontmatter
    split
    · rfl
    · rename_i l0 rest heq
      rw [heq] at h
      simp only [List.headD_cons] at h
      rw [if_neg h]
  unfold validate_skill
  rw [hex]

theorem C1_missing_open_delimiter_witness :
    trimChars ((splitLines ("hello, world" : String).data).headD []) ≠ delim ∧
      validate_skill "x.md" "hello, world" = ([missingOpenMsg], []) :=
  ⟨by decide, C1_missing_open_delimiter "x.md" "hello, world" (by decide)⟩

/-- C9: when extraction fails, the orchestrator returns the extraction error
alone and an empty warnings list, even for a file whose basename is not
SKILL.md: the staged filename warning is discarded. -/
theorem C9_filename_warning_discarded (fn content e : String)
    (hfn : fn ≠ "SKILL.md") (hex : extract_frontmatter content = Except.error e) :
    validate_skill fn content = ([e], []) := by
  unfold validate_skill
  rw [hex]

theorem C9_filename_warning_discarded_witness :
    ("skill.md" : String) ≠ "SKILL.md" ∧
      extract_frontmatter "not frontmatter" = Except.error missingOpenMsg ∧
      validate_skill "skill.md" "not frontmatter" = ([missingOpenMsg], []) :=
  ⟨by decide, rfl, C9_filename_warning_discarded "skill.md" "not frontmatter" missingOpenMsg (by decide) rfl⟩

/-- C6: an empty name or description field short-circuits to exactly the one
required-field error, with no other check on the field contributing; absent
keys default to the empty string, so a header with neither field yields
exactly the two required-field errors. -/
theorem C6_empty_field_short_circuit :
    validate_name "" = [nameRequiredMsg] ∧
      validate_description "" = [descRequiredMsg] ∧
      dictGet (parse_frontmatter "other: x") "name" = "" ∧
      validate_skill "SKILL.md" "\x2d\x2d\x2d\n\x2d\x2d\x2d\n" =
        ([nameRequiredMsg, descRequiredMsg], []) := by
  refine ⟨by decide, by decide, by decide, by decide⟩

theorem reserved_beq_ac : (nameReservedMsg "anthropic" == nameReservedMsg "claude") = false := by
  decide

theorem reserved_beq_ca : (nameReservedMsg "claude" == nameReservedMsg "anthropic") = false := by
  decide

/-- C3 counterexample: a description whose only first-person-shaped content
is the standalone lowercase word i does produce the first-person error,
because the script passes the IGNORECASE flag for every pattern, bare
pronouns included; the claim predicts no first-person error here. -/
theorem C3_counterexample_lowercase_i :
    validate_description "Helps i when working with files." = [firstPersonMsg] := by
  decide

/-- C3 (amended): every first-person pattern, the bare pronouns included, is
matched case-insensitively (the IGNORECASE flag is passed on each search),
still with word boundaries for the bare pronouns: any non-empty description
matched by the case-insensitive bounded-word search for i receives the
first-person error, while a description whose letter i occurs only inside
words receives none. -/
theorem C3_first_person_case_insensitive :
    (∀ d : String, d ≠ "" → reSearch "i" true true d.data = true →
        firstPersonMsg ∈ validate_description d) ∧
      firstPersonMsg ∉ validate_description "Trims files. Use when working." := by
  constructor
  · intro d hne hi
    have hfp : firstPersonHit d.data = true := by
      unfold firstPersonHit
      rw [hi]
      simp
    unfold validate_description
    rw [if_neg hne]
    simp [hfp]
  · decide

theorem C3_first_person_case_insensitive_witness :
    (("Helps i when working with files." : String) ≠ "" ∧
        reSearch "i" true true ("Helps i when working with files." : String).data = true) ∧
      firstPersonMsg ∈ validate_description "Helps i when working with files." :=
  ⟨⟨by decide, by decide⟩,
    C3_first_person_case_insensitive.1 "Helps i when working with files." (by decide) (by decide)⟩

/-- C4 counterexample: a name containing the reserved word claude twice
yields a single reserved-word error, not one error per occurrence as the
claim states. -/
theorem C4_counterexample_two_occurrences :
    validate_name "claudeclaude" = [nameReservedMsg "claude"] := by
  decide

/-- C4 (amended): for every non-empty name and every reserved word of the
list, the validator emits exactly one error naming that word when the word
occurs case-insensitively as a substring of the name — however many times it
occurs — and none otherwise. -/
theorem C4_reserved_word_once_per_word (name w : String) (hne : name ≠ "")
    (hw : w ∈ RESERVED_WORDS) :
    (validate_name name).count (nameReservedMsg w) =
      if isSubstring w.data (lowerList name.data) then 1 else 0 := by
  have hw' : w = "anthropic" ∨ w = "claude" := by simpa [RESERVED_WORDS] using hw
  unfold validate_name
  rw [if_neg hne]
  rw [List.count_append, List.count_append, List.count_append]
  rw [count_ite_zero (nameLengthMsg_ne_reserved name.length w)]
  rw [count_ite_zero' (nameCharsMsg_ne_reserved w)]
  rw [count_ite_zero (nameXmlMsg_ne_reserved w)]
  rcases hw' with rfl | rfl
  · cases hpa : isSubstring ("anthropic" : String).data (lowerList name.data) <;>
      cases hpc : isSubstring ("claude" : String).data (lowerList name.data) <;>
        simp [RESERVED_WORDS, List.filter, hpa, hpc, List.count_cons, List.count_nil,
          reserved_beq_ca, reserved_beq_ac]
  · cases hpa : isSubstring ("anthropic" : String).data (lowerList name.data) <;>
      cases hpc : isSubstring ("claude" : String).data (lowerList name.data) <;>
        simp [RESERVED_WORDS, List.filter, hpa, hpc, List.count_cons, List.count_nil,
          reserved_beq_ca, reserved_beq_ac]

theorem C4_reserved_word_once_per_word_witness :
    (("claudeclaude" : String) ≠ "" ∧ "claude" ∈ RESERVED_WORDS) ∧
      (validate_name "claudeclaude").count (nameReservedMsg "claude") =
        if isSubstring ("claude" : String).data (lowerList ("claudeclaude" : String).data)
          then 1 else 0 :=
  ⟨⟨by decide, by decide⟩,
    C4_reserved_word_once_per_word "claudeclaude" "claude" (by decide) (by decide)⟩

/-- C7: for every description the first-person scan contributes at most one
error and the second-person scan at most one error, and the two are separate
messages that can both appear in one validation. -/
theorem C7_person_scans_at_most_one_each :
    (∀ d : String, (validate_description d).count firstPersonMsg ≤ 1 ∧
        (validate_description d).count secondPersonMsg ≤ 1) ∧
      validate_description "I help you. Use when working." =
        [firstPersonMsg, secondPersonMsg] := by
  constructor
  · intro d
    constructor
    · unfold validate_description
      split
      · decide
      · rw [List.count_append, List.count_append, List.count_append, List.count_append]
        rw [count_ite_zero (descLengthMsg_ne_first d.length)]
        rw [count_ite_zero (show descXmlMsg ≠ firstPersonMsg by decide)]
        rw [count_ite_zero (show secondPersonMsg ≠ firstPersonMsg by decide)]
        rw [count_ite_zero' (show descWhenMsg ≠ firstPersonMsg by decide)]
        have hb := count_ite_le_one (firstPersonHit d.data = true) firstPersonMsg firstPersonMsg
        omega
    · unfold validate_description
      split
      · decide
      · rw [List.count_append, List.count_append, List.count_append, List.count_append]
        rw [count_ite_zero (descLengthMsg_ne_second d.length)]
        rw [count_ite_zero (show descXmlMsg ≠ secondPersonMsg by decide)]
        rw [count_ite_zero (show firstPersonMsg ≠ secondPersonMsg by decide)]
        rw [count_ite_zero' (show descWhenMsg ≠ secondPersonMsg by decide)]
        have hb := count_ite_le_one (secondPersonHit d.data = true) secondPersonMsg secondPersonMsg
        omega
  · decide

theorem containsChar_append_colon (k v : List Char) :
    containsChar ':' (k ++ ':' :: v) = true := by
  induction k with
  | nil => simp [containsChar]
  | cons c k ih => simp [containsChar, ih]

theorem contains_false_head {a c : Char} {cs : List Char}
    (h : containsChar a (c :: cs) = false) :
    (c == a) = false ∧ containsChar a cs = false := by
  unfold containsChar at h
  simpa [Bool.or_eq_false_iff] using h

theorem keyOf_colon (k v : List Char) (h : containsChar ':' k = false) :
    keyOf (k ++ ':' :: v) = k := by
  induction k with
  | nil => simp [keyOf, List.takeWhile_cons]
  | cons c k ih =>
    obtain ⟨h1, h2⟩ := contains_false_head h
    simpa [keyOf, List.takeWhile_cons, h1] using ih h2

theorem valOf_colon (k v : List Char) (h : containsChar ':' k = false) :
    valOf (k ++ ':' :: v) = v := by
  induction k with
  | nil => simp [valOf, List.dropWhile_cons]
  | cons c k ih =>
    obtain ⟨h1, h2⟩ := contains_false_head h
    simpa [valOf, List.dropWhile_cons, h1] using ih h2

theorem dictGet_map_replace (k v : String) (d : List (String × String)) :
    dictGet (d.map (fun p => if p.1 == k then (k, v) else p)) k =
      if d.any (fun p => p.1 == k) then v else "" := by
  induction d with
  | nil => rfl
  | cons p rest ih =>
    simp only [List.map_cons, List.any_cons]
    by_cases hp : (p.1 == k) = true
    · rw [if_pos hp]
      simp [dictGet, List.find?, hp]
    · have hp' : (p.1 == k) = false := by simpa using hp
      rw [if_neg hp]
      simp only [hp', Bool.false_or]
      simpa [dictGet, List.find?, hp'] using ih

theorem dictGet_dictInsert (d : List (String × String)) (k v : String) :
    dictGet (dictInsert d k v) k = v := by
  unfold dictInsert
  cases hd : d.any (fun p => p.1 == k) with
  | true => rw [if_pos rfl, dictGet_map_replace k v d, if_pos hd]
  | false =>
    have hnone : List.find? (fun p => p.1 == k) d = none := by
      rw [List.find?_eq_none]
      intro x hx hpx
      have hany : d.any (fun p => p.1 == k) = true := List.any_eq_true.mpr ⟨x, hx, hpx⟩
      rw [hd] at hany
      exact Bool.noConfusion hany
    simp [hd, dictGet, List.find?_append, hnone, List.find?]

/-- C5: the key/value parser is total and lenient: a line without a colon
contributes nothing; a line with a colon splits at its first colon with both
sides trimmed; a dict write followed by a read of the same key returns the
written value, so the last occurrence of a repeated key wins, as on the
duplicate-name example. -/
theorem C5_parser_total_lenient_last_wins :
    (∀ (ls1 : List (List Char)) (l : List Char) (ls2 : List (List Char)),
        containsChar ':' l = false →
        parseLines (ls1 ++ l :: ls2) = parseLines (ls1 ++ ls2)) ∧
      (∀ k v : List Char, containsChar ':' k = false →
        parseLines [k ++ ':' :: v] =
          [(String.mk (trimChars k), String.mk (trimChars v))]) ∧
      (∀ (d : List (String × String)) (k v : String), dictGet (dictInsert d k v) k = v) ∧
      dictGet (parse_frontmatter "name: first\nx: y\nname: second") "name" = "second" := by
  refine ⟨?_, ?_, dictGet_dictInsert, by decide⟩
  · intro ls1 l ls2 h
    simp [parseLines, List.foldl_append, List.foldl_cons, parseLine, h]
  · intro k v h
    simp [parseLines, List.foldl_cons, List.foldl_nil, parseLine, containsChar_append_colon,
      keyOf_colon k v h, valOf_colon k v h, dictInsert]

theorem C5_parser_total_lenient_last_wins_witness :
    containsChar ':' ['x'] = false ∧
      parseLines [['a'], ['x']] = parseLines [['a']] ∧
      parseLines [['k', ':', 'v']] = [(String.mk (trimChars ['k']), String.mk (trimChars ['v']))] ∧
      dictGet (dictInsert ([] : List (String × String)) "a" "b") "a" = "b" :=
  ⟨by decide,
    C5_parser_total_lenient_last_wins.1 [['a']] ['x'] [] (by decide),
    C5_parser_total_lenient_last_wins.2.1 ['k'] ['v'] (by decide),
    C5_parser_total_lenient_last_wins.2.2.1 [] "a" "b"⟩

theorem hasXmlTag_false_of_no_gap : ∀ cs : List Char,
    (∀ i : Nat, i < cs.length → cs[i]? = some '<' → cs[i+1]? = some '>') →
    hasXmlTag cs = false := by
  intro cs
  induction cs with
  | nil => intro _; rfl
  | cons c rest ih =>
    intro H
    have hrest : hasXmlTag rest = false := by
      apply ih
      intro i hi h1
      have h2 := H (i + 1) (by simp; omega) (by simpa using h1)
      simpa using h2
    cases hc : (c == '<') with
    | false => simp [hasXmlTag, hc, hrest]
    | true =>
      have hc' : c = '<' := by simpa using hc
      have h0 := H 0 (by simp) (by simp [hc'])
      have h1 : rest[0]? = some '>' := by simpa using h0
      cases rest with
      | nil => simp at h1
      | cons r rs =>
        simp at h1
        subst h1
        simp only [hasXmlTag] at hrest ⊢
        rw [hrest, Bool.or_false]
        have ht : tagFrom ('>' :: rs) = false := by simp [tagFrom]
        rw [ht, Bool.and_false]

/-- C10: the tag pattern requires at least one character strictly between
the angle brackets: whenever every opening angle bracket of a value is
immediately followed by a closing one (so its only tag-shaped content is the
two-character empty tag), no tag matches and neither field validator emits
its markup error. -/
theorem C10_empty_tag_no_match (s : String)
    (h : ∀ i : Nat, i < s.data.length → s.data[i]? = some '<' → s.data[i+1]? = some '>') :
    hasXmlTag s.data = false ∧ nameXmlMsg ∉ validate_name s ∧
      descXmlMsg ∉ validate_description s := by
  have hx : hasXmlTag s.data = false := hasXmlTag_false_of_no_gap s.data h
  refine ⟨hx, ?_, ?_⟩
  · intro hmem
    unfold validate_name at hmem
    split at hmem
    · simp at hmem
      exact absurd hmem (by decide)
    · simp only [List.mem_append] at hmem
      rcases hmem with ((h1 | h2) | h3) | h4
      · have h1' := mem_of_ite_nil h1
        simp at h1'
        exact nameLengthMsg_ne_xml s.length h1'
      · have h2' := mem_of_ite_nil' h2
        simp at h2'
        exact absurd h2' (by decide)
      · rw [hx] at h3
        simp at h3
      · rcases List.mem_map.mp h4 with ⟨w, _, hw⟩
        exact nameXmlMsg_ne_reserved w hw.symm
  · intro hmem
    unfold validate_description at hmem
    split at hmem
    · simp at hmem
      exact absurd hmem (by decide)
    · simp only [List.mem_append] at hmem
      rcases hmem with (((h1 | h2) | h3) | h4) | h5
      · have h1' := mem_of_ite_nil h1
        simp at h1'
        exact descLengthMsg_ne_xml s.length h1'
      · rw [hx] at h2
        simp at h2
      · have h3' := mem_of_ite_nil h3
        simp at h3'
        exact absurd h3' (by decide)
      · have h4' := mem_of_ite_nil h4
        simp at h4'
        exact absurd h4' (by decide)
      · have h5' := mem_of_ite_nil' h5
        simp at h5'
        exact absurd h5' (by decide)

theorem C10_empty_tag_no_match_witness :
    (∀ i : Nat, i < ("a<>b" : String).data.length →
        ("a<>b" : String).data[i]? = some '<' → ("a<>b" : String).data[i+1]? = some '>') ∧
      (hasXmlTag ("a<>b" : String).data = false ∧ nameXmlMsg ∉ validate_name "a<>b" ∧
        descXmlMsg ∉ validate_description "a<>b") :=
  ⟨by decide, C10_empty_tag_no_match "a<>b" (by decide)⟩

theorem findSecondDelim_after_open (close : List Char) (body : List (List Char))
    (hc : trimChars close = delim) :
    ∀ (fmL : List (List Char)) (i : Nat), (∀ l ∈ fmL, trimChars l ≠ delim) →
      findSecondDelim (fmL ++ close :: body) i 1 = i + (fmL.length + 1) := by
  intro fmL
  induction fmL with
  | nil =>
    intro i _
    simp [findSecondDelim, hc]
  | cons l ls ih =>
    intro i hall
    have h1 : trimChars l ≠ delim := hall l (by simp)
    have h2 : ∀ x ∈ ls, trimChars x ≠ delim := fun x hx => hall x (by simp [hx])
    simp only [List.cons_append, findSecondDelim, if_neg h1, List.append_eq]
    rw [ih (i + 1) h2]
    simp [List.length_cons]
    omega

theorem count_lines_decomposition (content : String) (l0 close : List Char)
    (fmL body : List (List Char))
    (hs : splitLines content.data = l0 :: (fmL ++ close :: body))
    (h0 : trimChars l0 = delim)
    (hf : ∀ l ∈ fmL, trimChars l ≠ delim)
    (hc : trimChars close = delim) :
    count_lines content = (body.filter (fun l => !(trimChars l).isEmpty)).length := by
  simp only [count_lines]
  rw [hs]
  have hfs : findSecondDelim (l0 :: (fmL ++ close :: body)) 0 0 = fmL.length + 2 := by
    simp only [findSecondDelim, if_pos h0]
    rw [if_neg (by omega : ¬ (0 : Nat) + 1 = 2)]
    rw [findSecondDelim_after_open close body hc fmL 1 hf]
    omega
  rw [hfs]
  have hdrop : (l0 :: (fmL ++ close :: body)).drop (fmL.length + 2) = body := by
    rw [show fmL.length + 2 = (fmL.length + 1) + 1 by omega]
    rw [List.drop_succ_cons]
    rw [show fmL.length + 1 = fmL.length + 1 from rfl, List.drop_append 1]
    simp
  rw [hdrop]

theorem validate_skill_warnings (content fm : String)
    (hex : extract_frontmatter content = Except.ok fm) :
    (validate_skill "SKILL.md" content).2 =
      if count_lines content > 500 then [bodyWarnMsg (count_lines content)] else [] := by
  simp only [validate_skill, hex]
  split <;> simp

theorem no_body_warning_in_errors (fn content : String) (n : Nat) :
    bodyWarnMsg n ∉ (validate_skill fn content).1 := by
  intro hmem
  unfold validate_skill at hmem
  cases hex : extract_frontmatter content with
  | error e =>
    rw [hex] at hmem
    simp at hmem
    rcases extract_error_cases content e hex with he | he <;>
      · subst he
        have hS := bodyWarnMsg_get0 n
        rw [hmem] at hS
        exact absurd hS (by decide)
  | ok fm =>
    rw [hex] at hmem
    simp only [List.mem_append] at hmem
    rcases hmem with h | h
    · have hh := validate_name_head _ _ h
      rw [bodyWarnMsg_get0] at hh
      exact absurd hh (by decide)
    · have hh := validate_description_head _ _ h
      rw [bodyWarnMsg_get0] at hh
      exact absurd hh (by decide)

/-- C8: for a well-formed document the body line count is exactly the number
of lines after the second delimiter line that are non-empty after trimming;
the warnings of a validation are exactly one body warning naming that count
when it exceeds 500 and none otherwise; and a body warning never appears
among the errors. -/
theorem C8_body_line_count :
    (∀ (content : String) (l0 close : List Char) (fmL body : List (List Char)),
        splitLines content.data = l0 :: (fmL ++ close :: body) →
        trimChars l0 = delim →
        (∀ l ∈ fmL, trimChars l ≠ delim) →
        trimChars close = delim →
        count_lines content = (body.filter (fun l => !(trimChars l).isEmpty)).length) ∧
      (∀ content fm : String, extract_frontmatter content = Except.ok fm →
        (validate_skill "SKILL.md" content).2 =
          if count_lines content > 500 then [bodyWarnMsg (count_lines content)] else []) ∧
      (∀ (fn content : String) (n : Nat), bodyWarnMsg n ∉ (validate_skill fn content).1) :=
  ⟨count_lines_decomposition, validate_skill_warnings, no_body_warning_in_errors⟩

theorem C8_body_line_count_witness :
    (splitLines ("\x2d\x2d\x2d\na\n\x2d\x2d\x2d\nx\n\ny" : String).data =
        ['-', '-', '-'] :: ([['a']] ++ ['-', '-', '-'] :: [['x'], [], ['y']]) ∧
      count_lines "\x2d\x2d\x2d\na\n\x2d\x2d\x2d\nx\n\ny" =
        (([['x'], [], ['y']] : List (List Char)).filter (fun l => !(trimChars l).isEmpty)).length) ∧
      (validate_skill "SKILL.md" "\x2d\x2d\x2d\na\n\x2d\x2d\x2d\nx\n\ny").2 =
        (if count_lines "\x2d\x2d\x2d\na\n\x2d\x2d\x2d\nx\n\ny" > 500
          then [bodyWarnMsg (count_lines "\x2d\x2d\x2d\na\n\x2d\x2d\x2d\nx\n\ny")] else []) ∧
      bodyWarnMsg 501 ∉ (validate_skill "SKILL.md" "\x2d\x2d\x2d\na\n\x2d\x2d\x2d\nx\n\ny").1 :=
  ⟨⟨by decide,
      C8_body_line_count.1 "\x2d\x2d\x2d\na\n\x2d\x2d\x2d\nx\n\ny" ['-', '-', '-'] ['-', '-', '-']
        [['a']] [['x'], [], ['y']] (by decide) (by decide) (by decide) (by decide)⟩,
    C8_body_line_count.2.1 "\x2d\x2d\x2d\na\n\x2d\x2d\x2d\nx\n\ny" "a" rfl,
    C8_body_line_count.2.2 "SKILL.md" "\x2d\x2d\x2d\na\n\x2d\x2d\x2d\nx\n\ny" 501⟩

/-- C2: a document with well-formed frontmatter whose name passes every name
rule, whose description passes every description rule, and whose body has at
most 500 non-blank lines, validates with empty errors and empty warnings. -/
theorem C2_round_trip (content fm : String)
    (hex : extract_frontmatter content = Except.ok fm)
    (hn0 : dictGet (parse_frontmatter fm) "name" ≠ "")
    (hn1 : (dictGet (parse_frontmatter fm) "name").length ≤ MAX_NAME_LENGTH)
    (hn2 : namePatternMatch (dictGet (parse_frontmatter fm) "name").data = true)
    (hn3 : hasXmlTag (dictGet (parse_frontmatter fm) "name").data = false)
    (hn4 : ∀ w ∈ RESERVED_WORDS,
      isSubstring w.data (lowerList (dictGet (parse_frontmatter fm) "name").data) = false)
    (hd0 : dictGet (parse_frontmatter fm) "description" ≠ "")
    (hd1 : (dictGet (parse_frontmatter fm) "description").length ≤ MAX_DESCRIPTION_LENGTH)
    (hd2 : hasXmlTag (dictGet (parse_frontmatter fm) "description").data = false)
    (hd3 : firstPersonHit (dictGet (parse_frontmatter fm) "description").data = false)
    (hd4 : secondPersonHit (dictGet (parse_frontmatter fm) "description").data = false)
    (hd5 : hasWhenIndicator (dictGet (parse_frontmatter fm) "description").data = true)
    (hlc : count_lines content ≤ 500) :
    validate_skill "SKILL.md" content = ([], []) := by
  simp only [validate_skill, hex]
  rw [validate_name_nil _ hn0 hn1 hn2 hn3 hn4]
  rw [validate_description_nil _ hd0 hd1 hd2 hd3 hd4 hd5]
  rw [if_neg (by omega : ¬ count_lines content > 500)]
  simp

theorem C2_round_trip_witness :
    (extract_frontmatter "\x2d\x2d\x2d\nname: my-skill\ndescription: Formats files. Use when working with files.\n\x2d\x2d\x2d\nDoes things.\n" =
        Except.ok "name: my-skill\ndescription: Formats files. Use when working with files." ∧
      dictGet (parse_frontmatter "name: my-skill\ndescription: Formats files. Use when working with files.") "name" = "my-skill" ∧
      dictGet (parse_frontmatter "name: my-skill\ndescription: Formats files. Use when working with files.") "description" = "Formats files. Use when working with files." ∧
      count_lines "\x2d\x2d\x2d\nname: my-skill\ndescription: Formats files. Use when working with files.\n\x2d\x2d\x2d\nDoes things.\n" ≤ 500) ∧
      validate_skill "SKILL.md" "\x2d\x2d\x2d\nname: my-skill\ndescription: Formats files. Use when working with files.\n\x2d\x2d\x2d\nDoes things.\n" = ([], []) :=
  ⟨⟨rfl, by decide, by decide, by decide⟩,
    C2_round_trip
      "\x2d\x2d\x2d\nname: my-skill\ndescription: Formats files. Use when working with files.\n\x2d\x2d\x2d\nDoes things.\n"
      "name: my-skill\ndescription: Formats files. Use when working with files."
      rfl (by decide) (by decide) (by decide) (by decide) (by decide) (by decide) (by decide)
      (by decide) (by decide) (by decide) (by decide) (by decide)⟩
